import Mathlib

/-!
# Verification of the Rust HTTP server (`src/main.rs`)

A shallow embedding of the server's pure core. Rust `String`/`&str`/byte
buffers are modelled as `List Nat` (the UTF-8 byte sequence, each byte
`< 256`); `str::len` is therefore exactly `List.length`. Fallible
operations return `Option`/sum types; the `.unwrap()`/`.expect(..)` calls
of the source are modelled by an explicit `panicked` outcome.

Third-party dependency functions called by `main.rs` (`httparse`'s
`Request::parse`, the `http` crate's `Method::from_bytes`, and
`String::from_utf8_lossy` from the Rust standard library) are not part of
this repository; they are modelled here from their documented behavior,
byte for byte where the claims depend on it.
-/

set_option maxRecDepth 100000

namespace HttpServer

/-- UTF-8 encoding of one Unicode scalar value (standard 1-4 byte form). -/
def utf8EncodeNat (c : Nat) : List Nat :=
  if c < 0x80 then [c]
  else if c < 0x800 then [0xC0 + c / 64, 0x80 + c % 64]
  else if c < 0x10000 then [0xE0 + c / 4096, 0x80 + (c / 64) % 64, 0x80 + c % 64]
  else [0xF0 + c / 262144, 0x80 + (c / 4096) % 64, 0x80 + (c / 64) % 64, 0x80 + c % 64]

/-- The UTF-8 bytes of a Lean string literal; used to embed Rust string
literals (all of which are ASCII in this program). -/
def bytes (s : String) : List Nat :=
  (s.data.map (fun ch => utf8EncodeNat ch.toNat)).flatten

/-- `0x80 ≤ b ≤ 0xBF`: a UTF-8 continuation byte. -/
def isCont (b : Nat) : Bool := 0x80 ≤ b && b ≤ 0xBF

/-- Rust `String::from_utf8_lossy`, fuel-indexed (fuel bounds the number of
decoding steps; `utf8Lossy` supplies `length` which always suffices).
Valid UTF-8 sequences are copied; each maximal invalid prefix — of length
1, 2 or 3 according to how many bytes of a well-formed sequence were seen,
as in Rust core's UTF-8 validation — is replaced by U+FFFD (`EF BF BD`). -/
def utf8LossyFuel (rep : List Nat) : Nat → List Nat → List Nat
  | _, [] => []
  | 0, s => s
  | f + 1, b :: rest =>
    if b < 0x80 then b :: utf8LossyFuel rep f rest
    else if 0xC2 ≤ b && b ≤ 0xDF then
      match rest with
      | [] => rep
      | c :: rest2 =>
        if isCont c then b :: c :: utf8LossyFuel rep f rest2
        else rep ++ utf8LossyFuel rep f rest
    else if 0xE0 ≤ b && b ≤ 0xEF then
      match rest with
      | [] => rep
      | c :: rest2 =>
        if (b = 0xE0 && (0xA0 ≤ c && c ≤ 0xBF))
            || (0xE1 ≤ b && b ≤ 0xEC && isCont c)
            || (b = 0xED && (0x80 ≤ c && c ≤ 0x9F))
            || (0xEE ≤ b && isCont c) then
          match rest2 with
          | [] => rep
          | d :: rest3 =>
            if isCont d then b :: c :: d :: utf8LossyFuel rep f rest3
            else rep ++ utf8LossyFuel rep f rest2
        else rep ++ utf8LossyFuel rep f rest
    else if 0xF0 ≤ b && b ≤ 0xF4 then
      match rest with
      | [] => rep
      | c :: rest2 =>
        if (b = 0xF0 && (0x90 ≤ c && c ≤ 0xBF))
            || (0xF1 ≤ b && b ≤ 0xF3 && isCont c)
            || (b = 0xF4 && (0x80 ≤ c && c ≤ 0x8F)) then
          match rest2 with
          | [] => rep
          | d :: rest3 =>
            if isCont d then
              match rest3 with
              | [] => rep
              | e :: rest4 =>
                if isCont e then b :: c :: d :: e :: utf8LossyFuel rep f rest4
                else rep ++ utf8LossyFuel rep f rest3
            else rep ++ utf8LossyFuel rep f rest2
        else rep ++ utf8LossyFuel rep f rest
    else rep ++ utf8LossyFuel rep f rest

/-- Rust `String::from_utf8_lossy` on a byte buffer (result as bytes). -/
def utf8Lossy (s : List Nat) : List Nat :=
  utf8LossyFuel (bytes "�") s.length s

/-- `http::Method` (the `http` crate): the named standard methods plus
extension methods carrying their token bytes. -/
inductive Method where
  | GET | POST | PUT | DELETE | HEAD | OPTIONS | CONNECT | PATCH | TRACE
  | extensionM (token : List Nat)
deriving DecidableEq, Repr

/-- A byte allowed in an HTTP method per the `http` crate
(`Method::from_bytes`): RFC 7230 `tchar` — digits, letters and
``! # $ % & ' * + - . ^ _ ` | ~``. -/
def methodChar (b : Nat) : Bool :=
  (0x30 ≤ b && b ≤ 0x39) || (0x41 ≤ b && b ≤ 0x5A) || (0x61 ≤ b && b ≤ 0x7A)
    || b = 0x21 || b = 0x23 || b = 0x24 || b = 0x25 || b = 0x26 || b = 0x27
    || b = 0x2A || b = 0x2B || b = 0x2D || b = 0x2E || b = 0x5E || b = 0x5F
    || b = 0x60 || b = 0x7C || b = 0x7E

/-- `http::Method::from_bytes`: the empty string and any string containing
a non-`tchar` byte are rejected (`InvalidMethod`); known method names map
to their variants, any other `tchar` string becomes an extension method. -/
def Method.from_bytes (src : List Nat) : Option Method :=
  if src = [] then none
  else if src = bytes "GET" then some .GET
  else if src = bytes "PUT" then some .PUT
  else if src = bytes "POST" then some .POST
  else if src = bytes "HEAD" then some .HEAD
  else if src = bytes "PATCH" then some .PATCH
  else if src = bytes "TRACE" then some .TRACE
  else if src = bytes "DELETE" then some .DELETE
  else if src = bytes "OPTIONS" then some .OPTIONS
  else if src = bytes "CONNECT" then some .CONNECT
  else if src.all methodChar then some (.extensionM src) else none

/-- Rust `str::replace(needle, repl)` scanning loop, fuel-indexed (fuel
bounds the scanning steps; `replaceList` supplies `length`, which always
suffices). At each position: if the (nonempty) needle is a prefix, emit
`repl` and continue after the matched needle — the replacement text is
not rescanned — otherwise emit the byte and move one position. This is
Rust's leftmost, non-overlapping match replacement. (`main.rs` only calls
`replace` with nonempty literal patterns.) -/
def replaceFuel (needle repl : List Nat) : Nat → List Nat → List Nat
  | _, [] => []
  | 0, s => s
  | f + 1, b :: rest =>
    if !needle.isEmpty && needle.isPrefixOf (b :: rest) then
      repl ++ replaceFuel needle repl f (rest.drop (needle.length - 1))
    else
      b :: replaceFuel needle repl f rest

/-- Rust `s.replace(needle, repl)` (for nonempty `needle`). -/
def replaceList (s needle repl : List Nat) : List Nat :=
  replaceFuel needle repl s.length s

/-- The `HTML_TEMPLATE` constant of `main.rs` (a raw string literal whose
content starts and ends with a newline). -/
def HTML_TEMPLATE : List Nat :=
  bytes "\n<!DOCTYPE html>\n<html>\n<head>\n    <title>\x7btitle\x7d</title>\n</head>\n<body>\n    <h1>\x7bcontent\x7d</h1>\n</body>\n</html>\n"

/-- `create_response`: substitute `title` then `content` into the template
and pair with content type `"text/html"` and the given status code. -/
def create_response (title content : List Nat) (status_code : Nat) :
    List Nat × List Nat × Nat :=
  (replaceList (replaceList HTML_TEMPLATE (bytes "\x7btitle\x7d") title)
      (bytes "\x7bcontent\x7d") content,
    bytes "text/html", status_code)

/-- A handler: raw request text to (body, content type, status code). -/
def Handler : Type := List Nat → List Nat × List Nat × Nat

/-- `handle_hello` (ignores its request argument). -/
def handle_hello : Handler := fun _ =>
  create_response (bytes "Hello Page") (bytes "Hello, Rust HTTP Server!") 200

/-- `handle_goodbye` (ignores its request argument). -/
def handle_goodbye : Handler := fun _ =>
  create_response (bytes "Goodbye Page") (bytes "Goodbye, Rust HTTP Server!") 200

/-- `handle_submit` (ignores its request argument). -/
def handle_submit : Handler := fun _ =>
  create_response (bytes "Submission Page") (bytes "Data submitted successfully!") 200

/-- `handle_not_found` (ignores its request argument). -/
def handle_not_found : Handler := fun _ =>
  create_response (bytes "404 - Not Found") (bytes "Not Found") 404

/-- The route table built in `main`: a `HashMap` keyed by exact
`(path, method)` pairs, modelled as an association list (the three keys
are distinct, so insertion order does not matter for lookup). -/
def routes : List ((List Nat × Method) × Handler) :=
  [((bytes "/hello", Method.GET), handle_hello),
   ((bytes "/bye", Method.GET), handle_goodbye),
   ((bytes "/submit", Method.POST), handle_submit)]

/-- `find_handler`: `routes.get(&(path, method)).copied()` — exact key
equality on the (path, method) pair, no normalization. -/
def find_handler (path : List Nat) (method : Method)
    (rs : List ((List Nat × Method) × Handler)) : Option Handler :=
  (rs.find? (fun kv => decide (kv.1 = (path, method)))).map (fun kv => kv.2)

/-- The dispatch expression of `handle_client`:
`find_handler(..).map_or_else(|| handle_not_found(&request), |h| h(&request))`. -/
def dispatch (path : List Nat) (method : Method) (request : List Nat) :
    List Nat × List Nat × Nat :=
  match find_handler path method routes with
  | none => handle_not_found request
  | some h => h request

/-- Decimal digit bytes of a natural number, fuel-indexed
(`natBytes` supplies `n + 1`, which always suffices). -/
def natDigitsFuel : Nat → Nat → List Nat
  | 0, _ => []
  | f + 1, n => if n < 10 then [48 + n] else natDigitsFuel f (n / 10) ++ [48 + n % 10]

/-- The decimal digit bytes Rust's `Display` prints for an unsigned
integer (no sign, no padding). -/
def natBytes (n : Nat) : List Nat := natDigitsFuel (n + 1) n

/-- Value of a decimal digit string (used to state that the
`Content-Length` digits denote the body's byte length). -/
def decValue (ds : List Nat) : Nat := ds.foldl (fun a d => a * 10 + (d - 48)) 0

/-- The `format!` string of `handle_client`:
`"HTTP/1.1 {status}\r\nContent-Length: {len}\r\nContent-Type: {ct}\r\n\r\n{body}"`
where `{len}` is `response_content.len()`, the byte length of the body. -/
def serializeResponse (content contentType : List Nat) (status : Nat) : List Nat :=
  bytes "HTTP/1.1 " ++ natBytes status
    ++ bytes "\r\nContent-Length: " ++ natBytes content.length
    ++ bytes "\r\nContent-Type: " ++ contentType
    ++ bytes "\r\n\r\n" ++ content

/-! ## The request parser (`httparse::Request::parse`)

`main.rs` hands the (lossily decoded) buffer to `httparse`. The parser is
modelled from the `httparse` crate: request line (method token, URI,
version, CRLF) then up to 16 headers. Each stage either consumes bytes
and succeeds, fails with an error, or reports that the buffer ended
before the element was complete (`httparse`'s `Status::Partial`).
`Request::parse` assigns the `method`/`path` fields only once the
corresponding token is fully parsed, so a `Partial` result can leave
either field `None` — which matters because `handle_client` calls
`.unwrap()` on both without checking. -/

/-- `httparse` parse errors (the variants this model can produce). -/
inductive HErr where
  | Token | NewLine | Version | HeaderName | HeaderValue | TooManyHeaders
deriving DecidableEq, Repr

/-- Outcome of one parsing stage: success with the remaining bytes,
failure, or end of buffer before the element was complete. -/
inductive Step (α : Type) where
  | ok (a : α) (rest : List Nat)
  | needMore
  | fail (e : HErr)
deriving DecidableEq, Repr

/-- `httparse`'s `is_token`: any byte `0x20..0x7E` (printable ASCII);
method/token scanning stops at the space separator. -/
def is_token (b : Nat) : Bool := 0x1F < b && b < 0x7F

/-- `httparse`'s URI byte check: printable ASCII other than space. -/
def is_uri_token (b : Nat) : Bool := 0x20 < b && b < 0x7F

/-- `httparse` header-name bytes: RFC 7230 `tchar` (same set as
`methodChar`). -/
def is_header_name_token (b : Nat) : Bool := methodChar b

/-- `httparse` header-value bytes: horizontal tab or any byte other than
the control bytes `0x00..0x1F` and `0x7F`. -/
def is_header_value_token (b : Nat) : Bool := b = 0x09 || (0x1F < b && b ≠ 0x7F)

/-- `httparse` `skip_empty_lines`: consume leading CRLF / LF pairs; a lone
CR at the end of the buffer is `Partial`, a CR not followed by LF is a
`NewLine` error. -/
def skip_empty_lines : List Nat → Step Unit
  | [] => .needMore
  | 13 :: rest =>
    match rest with
    | [] => .needMore
    | 10 :: rest2 => skip_empty_lines rest2
    | _ :: _ => .fail .NewLine
  | 10 :: rest => skip_empty_lines rest
  | b :: rest => .ok () (b :: rest)

/-- Scanning loop of `httparse` `parse_token` after the first byte: stop
at a space (the token is everything before it), fail on a non-token
byte, report `Partial` if the buffer ends first. -/
def token_loop (acc : List Nat) : List Nat → Step (List Nat)
  | [] => .needMore
  | b :: rest =>
    if b = 32 then .ok acc.reverse rest
    else if is_token b then token_loop (b :: acc) rest
    else .fail .Token

/-- `httparse` `parse_token` (used for the method): the first byte must be
a token byte, then scan to the space separator. -/
def parse_token : List Nat → Step (List Nat)
  | [] => .needMore
  | b :: rest => if is_token b then token_loop [b] rest else .fail .Token

/-- Scanning loop of `httparse` `parse_uri` after the first byte. -/
def uri_loop (acc : List Nat) : List Nat → Step (List Nat)
  | [] => .needMore
  | b :: rest =>
    if b = 32 then .ok acc.reverse rest
    else if is_uri_token b then uri_loop (b :: acc) rest
    else .fail .Token

/-- `httparse` `parse_uri`: first byte must be a URI byte, then scan to
the space separator. -/
def parse_uri : List Nat → Step (List Nat)
  | [] => .needMore
  | b :: rest => if is_uri_token b then uri_loop [b] rest else .fail .Token

/-- `httparse` `parse_version`: exactly `HTTP/1.0` or `HTTP/1.1`; a
proper prefix of one of them at the end of the buffer is `Partial`,
anything else is a `Version` error. -/
def parse_version (s : List Nat) : Step Nat :=
  if (bytes "HTTP/1.1").isPrefixOf s then .ok 1 (s.drop 8)
  else if (bytes "HTTP/1.0").isPrefixOf s then .ok 0 (s.drop 8)
  else if s.isPrefixOf (bytes "HTTP/1.1") || s.isPrefixOf (bytes "HTTP/1.0") then .needMore
  else .fail .Version

/-- A single CRLF (or bare LF) line terminator, as `httparse` accepts
after the request line. -/
def parse_newline : List Nat → Step Unit
  | [] => .needMore
  | 13 :: rest =>
    match rest with
    | [] => .needMore
    | 10 :: rest2 => .ok () rest2
    | _ :: _ => .fail .NewLine
  | 10 :: rest => .ok () rest
  | _ :: _ => .fail .NewLine

/-- Header-name scanning loop: bytes up to the `:` separator. -/
def header_name_loop : List Nat → Step Unit
  | [] => .needMore
  | b :: rest =>
    if b = 58 then .ok () rest
    else if is_header_name_token b then header_name_loop rest
    else .fail .HeaderName

/-- Header-value scanning loop: bytes up to the line terminator. -/
def header_value_loop : List Nat → Step Unit
  | [] => .needMore
  | 13 :: rest =>
    match rest with
    | [] => .needMore
    | 10 :: rest2 => .ok () rest2
    | _ :: _ => .fail .HeaderValue
  | 10 :: rest => .ok () rest
  | b :: rest =>
    if is_header_value_token b then header_value_loop rest else .fail .HeaderValue

/-- Skip the optional spaces/tabs between `:` and the header value. -/
def header_value_start : List Nat → Step Unit
  | [] => .needMore
  | b :: rest =>
    if b = 32 || b = 9 then header_value_start rest
    else header_value_loop (b :: rest)

/-- `httparse` `parse_headers_iter` over the request's 16 header slots,
fuel-indexed (fuel bounds the number of headers read; `parse` supplies
the buffer length, which always suffices since each header consumes at
least one byte). An empty line ends the header section; a 17th header is
`TooManyHeaders`. -/
def headers_loop (fuel count : Nat) (s : List Nat) : Step Unit :=
  match s with
  | [] => .needMore
  | 13 :: rest =>
    (match rest with
     | [] => .needMore
     | 10 :: rest2 => .ok () rest2
     | _ :: _ => .fail .NewLine)
  | 10 :: rest => .ok () rest
  | b :: rest =>
    match fuel with
    | 0 => .needMore
    | f + 1 =>
      if 16 ≤ count then .fail .TooManyHeaders
      else if !is_header_name_token b then .fail .HeaderName
      else
        match header_name_loop rest with
        | .needMore => .needMore
        | .fail e => .fail e
        | .ok () r2 =>
          match header_value_start r2 with
          | .needMore => .needMore
          | .fail e => .fail e
          | .ok () r3 => headers_loop f (count + 1) r3

/-- The `method`/`path` fields of `httparse::Request` that `handle_client`
reads (each is set only once its token has been fully parsed). -/
structure PReq where
  method : Option (List Nat)
  path : Option (List Nat)
deriving DecidableEq, Repr

/-- Result of `Request::parse` as `handle_client` observes it: `Err e`,
or `Ok(Partial)` / `Ok(Complete)` together with the field values. -/
inductive ParseOut where
  | err (e : HErr)
  | needMore (r : PReq)
  | complete (r : PReq)
deriving DecidableEq, Repr

/-- `httparse::Request::parse` on a byte buffer: skip empty lines, parse
`method SP uri SP version CRLF`, then the headers. -/
def parse (buf : List Nat) : ParseOut :=
  match skip_empty_lines buf with
  | .fail e => .err e
  | .needMore => .needMore ⟨none, none⟩
  | .ok () r0 =>
    match parse_token r0 with
    | .fail e => .err e
    | .needMore => .needMore ⟨none, none⟩
    | .ok m r1 =>
      match parse_uri r1 with
      | .fail e => .err e
      | .needMore => .needMore ⟨some m, none⟩
      | .ok p r2 =>
        match parse_version r2 with
        | .fail e => .err e
        | .needMore => .needMore ⟨some m, some p⟩
        | .ok _ r3 =>
          match parse_newline r3 with
          | .fail e => .err e
          | .needMore => .needMore ⟨some m, some p⟩
          | .ok () r4 =>
            match headers_loop r4.length 0 r4 with
            | .fail e => .err e
            | .needMore => .needMore ⟨some m, some p⟩
            | .ok () _ => .complete ⟨some m, some p⟩

/-! ## The connection handler (`handle_client`)

`handle_client` is IO-bound at three points: the single `stream.read`,
`stream.write_all`, and `stream.flush`. Those three interactions are the
function's parameters here (the read's result, and whether the write and
the flush succeed); everything between them is the pure code of
`main.rs`, including the `error!` log calls and the two `unwrap`s and one
`expect` that can panic the connection's thread. -/

/-- How `handle_client` ends: returning `Ok(())`, returning an `Err`
(only the `?` on `stream.read` does this), or panicking. -/
inductive ConnOutcome where
  | retOk
  | retErr
  | panicked (msg : String)
deriving DecidableEq, Repr

/-- Observable effects of one `handle_client` run: the payloads passed to
`write_all` (in order), whether `flush` was called, the `error!` log
messages (in order), and how the function ended. -/
structure ConnResult where
  writes : List (List Nat)
  flushed : Bool
  logs : List String
  outcome : ConnOutcome
deriving DecidableEq, Repr

/-- The code of `handle_client` after a successful parse: unwrap the
method, convert it (`Method::from_bytes(..).expect(..)`), unwrap the
path, dispatch, serialize, write, flush. -/
def afterParse : PReq → List Nat → Bool → Bool → ConnResult
  | ⟨none, _⟩, _, _, _ =>
    ⟨[], false, [], .panicked "called Option::unwrap() on a None value"⟩
  | ⟨some mb, op⟩, request, writeOk, flushOk =>
    match Method.from_bytes mb, op with
    | none, _ => ⟨[], false, [], .panicked "Invalid HTTP method"⟩
    | some _, none => ⟨[], false, [], .panicked "called Option::unwrap() on a None value"⟩
    | some m, some p =>
      let resp := dispatch p m request
      let wire := serializeResponse resp.1 resp.2.1 resp.2.2
      ⟨[wire], true,
        (if writeOk then [] else ["Failed to write response"])
          ++ (if flushOk then [] else ["Failed to flush stream"]),
        .retOk⟩

/-- `handle_client`: `readRes` is the result of the single
`stream.read(&mut buffer)` (the bytes read, at most 1024, or an IO
error); `writeOk`/`flushOk` say whether `write_all`/`flush` succeed. -/
def handle_client (readRes : Except String (List Nat)) (writeOk flushOk : Bool) :
    ConnResult :=
  match readRes with
  | .error _ => ⟨[], false, [], .retErr⟩
  | .ok buffer =>
    if buffer.length = 0 then ⟨[], false, [], .retOk⟩
    else
      let request := utf8Lossy buffer
      match parse request with
      | .err _ => ⟨[], false, ["Failed to parse request"], .retOk⟩
      | .needMore r | .complete r => afterParse r request writeOk flushOk

/-! ## Derived values and specification-side notions used by the theorems -/

/-- The rendered body of `handle_hello`. -/
def helloBody : List Nat :=
  bytes "\n<!DOCTYPE html>\n<html>\n<head>\n    <title>Hello Page</title>\n</head>\n<body>\n    <h1>Hello, Rust HTTP Server!</h1>\n</body>\n</html>\n"

/-- The rendered body of `handle_goodbye`. -/
def byeBody : List Nat :=
  bytes "\n<!DOCTYPE html>\n<html>\n<head>\n    <title>Goodbye Page</title>\n</head>\n<body>\n    <h1>Goodbye, Rust HTTP Server!</h1>\n</body>\n</html>\n"

/-- The rendered body of `handle_submit`. -/
def submitBody : List Nat :=
  bytes "\n<!DOCTYPE html>\n<html>\n<head>\n    <title>Submission Page</title>\n</head>\n<body>\n    <h1>Data submitted successfully!</h1>\n</body>\n</html>\n"

/-- The rendered body of `handle_not_found` — the fixed 404 content. -/
def notFoundBody : List Nat :=
  bytes "\n<!DOCTYPE html>\n<html>\n<head>\n    <title>404 - Not Found</title>\n</head>\n<body>\n    <h1>Not Found</h1>\n</body>\n</html>\n"

/-- All handler functions the server can ever run (the three registered
ones and the not-found fallback). -/
def serverHandlers : List Handler :=
  [handle_hello, handle_goodbye, handle_submit, handle_not_found]

/-- Everything `serializeResponse` emits before the body. -/
def responseHead (bodyLen : Nat) (contentType : List Nat) (status : Nat) : List Nat :=
  bytes "HTTP/1.1 " ++ natBytes status
    ++ bytes "\r\nContent-Length: " ++ natBytes bodyLen
    ++ bytes "\r\nContent-Type: " ++ contentType
    ++ bytes "\r\n\r\n"

/-- Decidable substring-occurrence test: does `needle` occur contiguously
in `s`? -/
def subOcc (needle : List Nat) : List Nat → Bool
  | [] => needle.isEmpty
  | b :: rest => needle.isPrefixOf (b :: rest) || subOcc needle rest

/-- `needle` occurs in `s` at position `i`. -/
def OccursAt (needle s : List Nat) (i : Nat) : Prop := needle <+: s.drop i

/-- Specification-side statement of "replace every occurrence": `out` is
`s` with each leftmost, non-overlapping occurrence of `needle` replaced
by `repl` (the replacement text itself is not rescanned). Written from
the spec's words, to be compared with the code's `replaceList`. -/
inductive ReplacesAll (needle repl : List Nat) : List Nat → List Nat → Prop where
  | noOcc (s : List Nat) : (∀ i, ¬ OccursAt needle s i) → ReplacesAll needle repl s s
  | found (pre post out : List Nat) :
      (∀ i < pre.length, ¬ OccursAt needle (pre ++ needle ++ post) i) →
      ReplacesAll needle repl post out →
      ReplacesAll needle repl (pre ++ needle ++ post) (pre ++ repl ++ out)

/-! ## Helper lemmas -/

/-- Every byte `natDigitsFuel` emits is a decimal digit byte. -/
theorem natDigitsFuel_digit :
    ∀ f n d, d ∈ natDigitsFuel f n → 48 ≤ d ∧ d ≤ 57 := by
  intro f
  induction f with
  | zero => intro n d h; simp [natDigitsFuel] at h
  | succ f ih =>
    intro n d h
    by_cases hn : n < 10
    · simp [natDigitsFuel, hn] at h
      omega
    · simp [natDigitsFuel, hn] at h
      rcases h with h | h
      · exact ih _ _ h
      · have : n % 10 < 10 := Nat.mod_lt _ (by omega)
        omega

/-- Every byte of `natBytes n` is a decimal digit byte. -/
theorem natBytes_digit (n d : Nat) (h : d ∈ natBytes n) : 48 ≤ d ∧ d ≤ 57 :=
  natDigitsFuel_digit _ _ _ h

theorem foldl_natDigitsFuel :
    ∀ f n a, n < f →
      List.foldl (fun acc d => acc * 10 + (d - 48)) a (natDigitsFuel f n)
        = a * 10 ^ (natDigitsFuel f n).length + n := by
  intro f
  induction f with
  | zero => intro n a h; omega
  | succ f ih =>
    intro n a h
    by_cases hn : n < 10
    · simp only [natDigitsFuel, if_pos hn, List.foldl_cons, List.foldl_nil,
        List.length_singleton, pow_one]
      omega
    · have hrec : n / 10 < f := by
        have h1 : n / 10 < n := Nat.div_lt_self (by omega) (by omega)
        omega
      simp only [natDigitsFuel, if_neg hn, List.foldl_append, List.length_append,
        List.foldl_cons, List.foldl_nil, List.length_cons, List.length_nil]
      rw [ih _ a hrec]
      have hmod : (48 + n % 10) - 48 = n % 10 := by omega
      rw [hmod, pow_succ]
      have hdm : n / 10 * 10 + n % 10 = n := by omega
      generalize (10 : Nat) ^ (natDigitsFuel f (n / 10)).length = t
      linarith [hdm]

/-- The decimal digits printed for `n` denote `n`. -/
theorem decValue_natBytes (n : Nat) : decValue (natBytes n) = n := by
  have h := foldl_natDigitsFuel (n + 1) n 0 (Nat.lt_succ_self n)
  simpa [decValue, natBytes] using h

/-- The wire bytes are exactly head-then-body. -/
theorem serializeResponse_eq (c ct : List Nat) (s : Nat) :
    serializeResponse c ct s = responseHead c.length ct s ++ c := by
  simp [serializeResponse, responseHead]

/-- If `needle` does not start at the head of `b :: rest`, replacing
throughout `rest` and prepending `b` replaces throughout `b :: rest`. -/
theorem ReplacesAll.cons {needle repl : List Nat} {b : Nat} {rest out : List Nat}
    (hhead : ¬ needle <+: (b :: rest))
    (h : ReplacesAll needle repl rest out) :
    ReplacesAll needle repl (b :: rest) (b :: out) := by
  cases h with
  | noOcc s hno =>
    apply ReplacesAll.noOcc
    intro i
    cases i with
    | zero => simpa [OccursAt] using hhead
    | succ i => simpa [OccursAt] using hno i
  | found pre post out hleft hrec =>
    have e1 : b :: (pre ++ needle ++ post) = (b :: pre) ++ needle ++ post := by simp
    have e2 : b :: (pre ++ repl ++ out) = (b :: pre) ++ repl ++ out := by simp
    rw [e1, e2]
    apply ReplacesAll.found
    · intro i hi
      cases i with
      | zero =>
        simpa [OccursAt] using hhead
      | succ i =>
        have hi' : i < pre.length := by simpa using hi
        have := hleft i hi'
        simpa [OccursAt] using this
    · exact hrec

/-- The scanning loop of Rust's `str::replace` (as embedded in
`replaceFuel`) replaces every leftmost, non-overlapping occurrence. -/
theorem replaceFuel_spec (needle repl : List Nat) (hne : needle ≠ []) :
    ∀ f s, s.length ≤ f → ReplacesAll needle repl s (replaceFuel needle repl f s) := by
  intro f
  induction f with
  | zero =>
    intro s hs
    have hnil : s = [] := List.eq_nil_of_length_eq_zero (Nat.le_zero.mp hs)
    subst hnil
    refine ReplacesAll.noOcc [] ?_
    intro i
    simp [OccursAt, List.prefix_nil, hne]
  | succ f ih =>
    intro s hs
    match s with
    | [] =>
      refine ReplacesAll.noOcc [] ?_
      intro i
      simp [OccursAt, List.prefix_nil, hne]
    | b :: rest =>
      by_cases hp : needle <+: (b :: rest)
      · have hguard : (!needle.isEmpty && needle.isPrefixOf (b :: rest)) = true := by
          simp only [Bool.and_eq_true, Bool.not_eq_true', List.isEmpty_eq_false_iff_exists_mem]
          constructor
          · cases needle with
            | nil => exact absurd rfl hne
            | cons a l => exact ⟨a, by simp⟩
          · exact List.isPrefixOf_iff_prefix.mpr hp
        rw [replaceFuel, if_pos hguard]
        obtain ⟨post, hpost⟩ := hp
        cases needle with
        | nil => exact absurd rfl hne
        | cons n0 ntl =>
          have hb : n0 = b ∧ ntl ++ post = rest := by
            have h2 := hpost
            simp only [List.cons_append, List.cons.injEq] at h2
            exact ⟨h2.1, h2.2⟩
          have hdrop : rest.drop ((n0 :: ntl).length - 1) = post := by
            rw [← hb.2]
            simp [List.drop_left ntl post]
          rw [hdrop]
          have hlen : post.length ≤ f := by
            have h3 : rest.length ≤ f := by
              simp only [List.length_cons] at hs; omega
            have h4 : post.length ≤ rest.length := by
              rw [← hb.2]; simp
            omega
          have hfound := @ReplacesAll.found (n0 :: ntl) repl [] post
            (replaceFuel (n0 :: ntl) repl f post)
            (by intro i hi; simp at hi) (ih post hlen)
          have hsrc : (n0 :: ntl) ++ post = b :: rest := by
            simp [hb.1, hb.2]
          simpa [hsrc] using hfound
      · have hguard : needle.isPrefixOf (b :: rest) = false := by
          rw [Bool.eq_false_iff]
          intro hc
          exact hp (List.isPrefixOf_iff_prefix.mp hc)
        rw [replaceFuel, if_neg (by simp [hguard])]
        refine ReplacesAll.cons hp (ih rest ?_)
        simp only [List.length_cons] at hs
        omega

/-- `handle_hello` evaluated (it ignores its argument). -/
theorem handle_hello_eq (req : List Nat) :
    handle_hello req = (helloBody, bytes "text/html", 200) := rfl

/-- `handle_goodbye` evaluated (it ignores its argument). -/
theorem handle_goodbye_eq (req : List Nat) :
    handle_goodbye req = (byeBody, bytes "text/html", 200) := rfl

/-- `handle_submit` evaluated (it ignores its argument). -/
theorem handle_submit_eq (req : List Nat) :
    handle_submit req = (submitBody, bytes "text/html", 200) := rfl

/-- `handle_not_found` evaluated (it ignores its argument). -/
theorem handle_not_found_eq (req : List Nat) :
    handle_not_found req = (notFoundBody, bytes "text/html", 404) := rfl

/-- The dispatched response does not depend on the raw request text. -/
theorem dispatch_req_irrel (p : List Nat) (m : Method) (r1 r2 : List Nat) :
    dispatch p m r1 = dispatch p m r2 := by
  unfold dispatch
  cases hfind : find_handler p m routes with
  | none => rfl
  | some h =>
    have hmem : ∃ kv, routes.find? (fun kv => decide (kv.1 = (p, m))) = some kv ∧ kv.2 = h := by
      unfold find_handler at hfind
      cases hf : routes.find? (fun kv => decide (kv.1 = (p, m))) with
      | none => rw [hf] at hfind; simp at hfind
      | some kv => rw [hf] at hfind; simp at hfind; exact ⟨kv, rfl, hfind⟩
    obtain ⟨kv, hkv, hsnd⟩ := hmem
    have hmem2 := List.mem_of_find?_eq_some hkv
    subst hsnd
    simp only [routes, List.mem_cons, List.not_mem_nil, or_false] at hmem2
    rcases hmem2 with rfl | rfl | rfl <;> rfl

/-- Every run of the post-parse code either ends in a panic with nothing
written, or performs exactly one write followed by a flush and returns
`Ok(())`, logging each IO failure. -/
theorem afterParse_cases (r : PReq) (req : List Nat) (w f : Bool) :
    (∃ msg, afterParse r req w f = ⟨[], false, [], .panicked msg⟩)
    ∨ ∃ wire, afterParse r req w f =
        ⟨[wire], true,
          (if w then [] else ["Failed to write response"])
            ++ (if f then [] else ["Failed to flush stream"]), .retOk⟩ := by
  obtain ⟨om, op⟩ := r
  cases om with
  | none => exact Or.inl ⟨_, rfl⟩
  | some mb =>
    cases hfb : Method.from_bytes mb with
    | none => exact Or.inl ⟨"Invalid HTTP method", by simp [afterParse, hfb]⟩
    | some m =>
      cases op with
      | none =>
        exact Or.inl ⟨"called Option::unwrap() on a None value", by simp [afterParse, hfb]⟩
      | some p =>
        exact Or.inr ⟨serializeResponse (dispatch p m req).1 (dispatch p m req).2.1
          (dispatch p m req).2.2, by simp [afterParse, hfb]⟩

/-- The five possible overall shapes of a `handle_client` run. -/
theorem handle_client_cases (rr : Except String (List Nat)) (w f : Bool) :
    handle_client rr w f = ⟨[], false, [], .retErr⟩
    ∨ handle_client rr w f = ⟨[], false, [], .retOk⟩
    ∨ handle_client rr w f = ⟨[], false, ["Failed to parse request"], .retOk⟩
    ∨ (∃ msg, handle_client rr w f = ⟨[], false, [], .panicked msg⟩)
    ∨ ∃ wire, handle_client rr w f =
        ⟨[wire], true,
          (if w then [] else ["Failed to write response"])
            ++ (if f then [] else ["Failed to flush stream"]), .retOk⟩ := by
  cases rr with
  | error e => exact Or.inl rfl
  | ok buf =>
    by_cases h0 : buf.length = 0
    · right; left; simp [handle_client, h0]
    · cases hp : parse (utf8Lossy buf) with
      | err e =>
        right; right; left
        simp [handle_client, h0, hp]
      | needMore r =>
        rcases afterParse_cases r (utf8Lossy buf) w f with ⟨msg, hm⟩ | ⟨wire, hww⟩
        · right; right; right; left
          exact ⟨msg, by simp [handle_client, h0, hp, hm]⟩
        · right; right; right; right
          exact ⟨wire, by simp [handle_client, h0, hp, hww]⟩
      | complete r =>
        rcases afterParse_cases r (utf8Lossy buf) w f with ⟨msg, hm⟩ | ⟨wire, hww⟩
        · right; right; right; left
          exact ⟨msg, by simp [handle_client, h0, hp, hm]⟩
        · right; right; right; right
          exact ⟨wire, by simp [handle_client, h0, hp, hww]⟩

/-- Looking up each registered key returns its handler. -/
theorem find_handler_hello :
    find_handler (bytes "/hello") Method.GET routes = some handle_hello := rfl

/-- Looking up each registered key returns its handler. -/
theorem find_handler_bye :
    find_handler (bytes "/bye") Method.GET routes = some handle_goodbye := rfl

/-- Looking up each registered key returns its handler. -/
theorem find_handler_submit :
    find_handler (bytes "/submit") Method.POST routes = some handle_submit := rfl

/-- Exact, case-sensitive route lookup: the lookup misses exactly when
`(path, method)` is none of the three registered keys. -/
theorem find_handler_none_iff (p : List Nat) (m : Method) :
    find_handler p m routes = none ↔
      ¬ ((p = bytes "/hello" ∧ m = Method.GET) ∨ (p = bytes "/bye" ∧ m = Method.GET)
          ∨ (p = bytes "/submit" ∧ m = Method.POST)) := by
  constructor
  · intro hn hor
    rcases hor with ⟨rfl, rfl⟩ | ⟨rfl, rfl⟩ | ⟨rfl, rfl⟩
    · rw [find_handler_hello] at hn; exact Option.noConfusion hn
    · rw [find_handler_bye] at hn; exact Option.noConfusion hn
    · rw [find_handler_submit] at hn; exact Option.noConfusion hn
  · intro hnot
    have h1 : ((bytes "/hello", Method.GET) : List Nat × Method) ≠ (p, m) := by
      intro he
      exact hnot (Or.inl ⟨(congrArg Prod.fst he).symm, (congrArg Prod.snd he).symm⟩)
    have h2 : ((bytes "/bye", Method.GET) : List Nat × Method) ≠ (p, m) := by
      intro he
      exact hnot (Or.inr (Or.inl ⟨(congrArg Prod.fst he).symm, (congrArg Prod.snd he).symm⟩))
    have h3 : ((bytes "/submit", Method.POST) : List Nat × Method) ≠ (p, m) := by
      intro he
      exact hnot (Or.inr (Or.inr ⟨(congrArg Prod.fst he).symm, (congrArg Prod.snd he).symm⟩))
    simp [find_handler, routes, List.find?, h1, h2, h3]

/-! ## The claims -/

/-- Claim C1 (refuted — the code panics): the claim says parsing and
method conversion never raise an unhandled fault for any input buffer.
The code violates this twice. For the one-byte buffer `G` (an incomplete
request line), `httparse` returns `Ok(Partial)` with `method` still
`None`, and `parsed_request.method.unwrap()` panics the connection
thread. For `G@T / HTTP/1.1\r\n\r\n`, `httparse` accepts `G@T` as a
token but `Method::from_bytes` rejects `@`, so the
`.expect("Invalid HTTP method")` panics — exactly the malformed-method
case the spec requires to be logged and dropped instead. -/
theorem claim_C1_method_fault_panics :
    handle_client (.ok (bytes "G")) true true
      = ⟨[], false, [], .panicked "called Option::unwrap() on a None value"⟩
    ∧ handle_client (.ok (bytes "G@T / HTTP/1.1\r\n\r\n")) true true
      = ⟨[], false, [], .panicked "Invalid HTTP method"⟩ := by
  exact ⟨by decide, by decide⟩

/-- Claim C2: the `Content-Length` value the server writes is the decimal
representation of the exact byte length of the body, the serialized
response is the header section followed immediately by the body, and
taking `Content-Length` bytes from the body position returns the whole
body — no more (nothing shorter), no less (nothing follows it). -/
theorem claim_C2_content_length_exact (c ct : List Nat) (s : Nat) :
    serializeResponse c ct s = responseHead c.length ct s ++ c
    ∧ decValue (natBytes c.length) = c.length
    ∧ List.take (decValue (natBytes c.length))
        (List.drop (responseHead c.length ct s).length (serializeResponse c ct s)) = c
    ∧ List.drop (decValue (natBytes c.length))
        (List.drop (responseHead c.length ct s).length (serializeResponse c ct s)) = [] := by
  refine ⟨serializeResponse_eq c ct s, decValue_natBytes _, ?_, ?_⟩
  · rw [serializeResponse_eq, List.drop_left, decValue_natBytes, List.take_length]
  · rw [serializeResponse_eq, List.drop_left, decValue_natBytes, List.drop_length]

/-- Claim C3: for every response triple produced by one of the server's
handlers, the wire bytes are exactly the status line `HTTP/1.1 <code>`
(digits only — no reason phrase), CRLF, the `Content-Length` header, the
`Content-Type` header, a blank line, and the body, all CRLF-terminated;
and no `Connection` header (indeed no other header) appears anywhere in
the serialized response. -/
theorem claim_C3_wire_format (h : Handler) (hmem : h ∈ serverHandlers) (req : List Nat) :
    serializeResponse (h req).1 (h req).2.1 (h req).2.2
      = bytes "HTTP/1.1 " ++ natBytes (h req).2.2 ++ bytes "\r\n"
        ++ bytes "Content-Length: " ++ natBytes (h req).1.length ++ bytes "\r\n"
        ++ bytes "Content-Type: " ++ (h req).2.1 ++ bytes "\r\n" ++ bytes "\r\n" ++ (h req).1
    ∧ (∀ d ∈ natBytes (h req).2.2, 48 ≤ d ∧ d ≤ 57)
    ∧ subOcc (bytes "Connection")
        (serializeResponse (h req).1 (h req).2.1 (h req).2.2) = false := by
  refine ⟨?_, fun d hd => natBytes_digit _ d hd, ?_⟩
  · have e1 : bytes "\r\nContent-Length: " = bytes "\r\n" ++ bytes "Content-Length: " := by
      decide
    have e2 : bytes "\r\nContent-Type: " = bytes "\r\n" ++ bytes "Content-Type: " := by decide
    have e3 : bytes "\r\n\r\n" = bytes "\r\n" ++ bytes "\r\n" := by decide
    simp only [serializeResponse, e1, e2, e3, List.append_assoc]
  · simp only [serverHandlers, List.mem_cons, List.not_mem_nil, or_false] at hmem
    rcases hmem with rfl | rfl | rfl | rfl
    · rw [handle_hello_eq]; decide
    · rw [handle_goodbye_eq]; decide
    · rw [handle_submit_eq]; decide
    · rw [handle_not_found_eq]; decide

/-- Witness for C3 at a concrete handler and request. -/
theorem claim_C3_wire_format_witness :
    subOcc (bytes "Connection")
      (serializeResponse (handle_hello []).1 (handle_hello []).2.1 (handle_hello []).2.2)
      = false :=
  (claim_C3_wire_format handle_hello (by simp [serverHandlers]) []).2.2

/-- Claim C4: route lookup is exact and case-sensitive — it misses
exactly when `(path, method)` differs from every registered key — and on
a miss the dispatcher runs the fixed not-found handler, whose response
has status code 404 and the fixed `Not Found` body. -/
theorem claim_C4_unmatched_gives_404 (p : List Nat) (m : Method) (req : List Nat) :
    (find_handler p m routes = none ↔
      ¬ ((p = bytes "/hello" ∧ m = Method.GET) ∨ (p = bytes "/bye" ∧ m = Method.GET)
          ∨ (p = bytes "/submit" ∧ m = Method.POST)))
    ∧ (find_handler p m routes = none →
        dispatch p m req = handle_not_found req
        ∧ dispatch p m req = (notFoundBody, bytes "text/html", 404)) := by
  refine ⟨find_handler_none_iff p m, fun hn => ?_⟩
  have hd : dispatch p m req = handle_not_found req := by
    unfold dispatch
    rw [hn]
  exact ⟨hd, by rw [hd, handle_not_found_eq]⟩

/-- Witness for C4: `/Hello` (capitalized) with GET, and `/hello` with
POST, both miss the table; dispatching `/Hello` yields the 404 body. -/
theorem claim_C4_unmatched_gives_404_witness :
    find_handler (bytes "/Hello") Method.GET routes = none
    ∧ dispatch (bytes "/Hello") Method.GET [] = (notFoundBody, bytes "text/html", 404)
    ∧ find_handler (bytes "/hello") Method.POST routes = none := by
  have h1 := claim_C4_unmatched_gives_404 (bytes "/Hello") Method.GET []
  have h2 := claim_C4_unmatched_gives_404 (bytes "/hello") Method.POST []
  have hn1 : find_handler (bytes "/Hello") Method.GET routes = none :=
    h1.1.mpr (by decide)
  exact ⟨hn1, (h1.2 hn1).2, h2.1.mpr (by decide)⟩

/-- Claim C5: each registered route maps to its handler, each handler
returns status 200 with the template-rendered body containing its
registered content word for word, and an end-to-end `GET /hello` request
produces exactly one written response: the serialized 200 hello page. -/
theorem claim_C5_registered_routes (req : List Nat) :
    find_handler (bytes "/hello") Method.GET routes = some handle_hello
    ∧ handle_hello req = (helloBody, bytes "text/html", 200)
    ∧ subOcc (bytes "<h1>Hello, Rust HTTP Server!</h1>") helloBody = true
    ∧ find_handler (bytes "/bye") Method.GET routes = some handle_goodbye
    ∧ handle_goodbye req = (byeBody, bytes "text/html", 200)
    ∧ subOcc (bytes "<h1>Goodbye, Rust HTTP Server!</h1>") byeBody = true
    ∧ find_handler (bytes "/submit") Method.POST routes = some handle_submit
    ∧ handle_submit req = (submitBody, bytes "text/html", 200)
    ∧ subOcc (bytes "<h1>Data submitted successfully!</h1>") submitBody = true
    ∧ handle_client (.ok (bytes "GET /hello HTTP/1.1\r\nHost: x\r\n\r\n")) true true
        = ⟨[serializeResponse helloBody (bytes "text/html") 200], true, [], .retOk⟩ := by
  exact ⟨find_handler_hello, handle_hello_eq req, by decide,
    find_handler_bye, handle_goodbye_eq req, by decide,
    find_handler_submit, handle_submit_eq req, by decide, by decide⟩

/-- Claim C6: for every title, content and status code, `create_response`
returns content type `text/html` and the status code unchanged, and its
body is the fixed template with every occurrence of the literal
placeholder `\x7btitle\x7d` replaced by the title and then every
occurrence of `\x7bcontent\x7d` replaced by the content, by literal
substring replacement with no escaping of the inputs (witnessed by the
specification-side `ReplacesAll` relation); being a total function, it
has no side effects and never fails. -/
theorem claim_C6_renderer (t c : List Nat) (code : Nat) :
    (∃ mid, ReplacesAll (bytes "\x7btitle\x7d") t HTML_TEMPLATE mid
      ∧ ReplacesAll (bytes "\x7bcontent\x7d") c mid (create_response t c code).1)
    ∧ (create_response t c code).2.1 = bytes "text/html"
    ∧ (create_response t c code).2.2 = code := by
  refine ⟨⟨replaceList HTML_TEMPLATE (bytes "\x7btitle\x7d") t, ?_, ?_⟩, rfl, rfl⟩
  · exact replaceFuel_spec _ t (by decide) _ _ le_rfl
  · exact replaceFuel_spec _ c (by decide) _ _ le_rfl

/-- Claim C7: a zero-byte first read makes `handle_client` return
`Ok(())` immediately: nothing is written, `flush` is never called, and
nothing at all is logged. -/
theorem claim_C7_zero_read_noop (w f : Bool) :
    handle_client (.ok []) w f = ⟨[], false, [], .retOk⟩ := rfl

/-- Claim C8: every `handle_client` run performs either no write at all
or exactly one write, of one complete serialized response; on a read
error, a zero-byte read, or a parse error, nothing is written. -/
theorem claim_C8_one_response_or_none (rr : Except String (List Nat)) (w f : Bool) :
    ((handle_client rr w f).writes = []
      ∨ ∃ c ct s, (handle_client rr w f).writes = [serializeResponse c ct s])
    ∧ (handle_client rr w f).writes.length ≤ 1
    ∧ (∀ e, rr = .error e → (handle_client rr w f).writes = [])
    ∧ (∀ buf, rr = .ok buf → buf.length = 0 → (handle_client rr w f).writes = [])
    ∧ (∀ buf er, rr = .ok buf → parse (utf8Lossy buf) = .err er →
        (handle_client rr w f).writes = []) := by
  have hshape : (handle_client rr w f).writes = []
      ∨ ∃ c ct s, (handle_client rr w f).writes = [serializeResponse c ct s] := by
    rcases handle_client_cases rr w f with h | h | h | ⟨msg, h⟩ | ⟨wire, h⟩
    · exact Or.inl (by rw [h])
    · exact Or.inl (by rw [h])
    · exact Or.inl (by rw [h])
    · exact Or.inl (by rw [h])
    · -- the only written payload is the serialization the code built
      rcases rr with _ | buf
      · exact absurd h (by intro hc; simp [handle_client] at hc)
      · by_cases h0 : buf.length = 0
        · exact absurd h (by intro hc; simp [handle_client, h0] at hc)
        · cases hp : parse (utf8Lossy buf) with
          | err e => exact absurd h (by intro hc; simp [handle_client, h0, hp] at hc)
          | needMore r =>
            rcases afterParse_cases r (utf8Lossy buf) w f with ⟨msg, hm⟩ | ⟨wire2, hw2⟩
            · exact Or.inl (by simp [handle_client, h0, hp, hm])
            · right
              obtain ⟨om, op⟩ := r
              cases om with
              | none => exact absurd hw2 (by intro hc; simp [afterParse] at hc)
              | some mb =>
                cases hfb : Method.from_bytes mb with
                | none => exact absurd hw2 (by intro hc; simp [afterParse, hfb] at hc)
                | some mm =>
                  cases op with
                  | none => exact absurd hw2 (by intro hc; simp [afterParse, hfb] at hc)
                  | some p =>
                    refine ⟨(dispatch p mm (utf8Lossy buf)).1,
                      (dispatch p mm (utf8Lossy buf)).2.1,
                      (dispatch p mm (utf8Lossy buf)).2.2, ?_⟩
                    simp [handle_client, h0, hp, afterParse, hfb]
          | complete r =>
            rcases afterParse_cases r (utf8Lossy buf) w f with ⟨msg, hm⟩ | ⟨wire2, hw2⟩
            · exact Or.inl (by simp [handle_client, h0, hp, hm])
            · right
              obtain ⟨om, op⟩ := r
              cases om with
              | none => exact absurd hw2 (by intro hc; simp [afterParse] at hc)
              | some mb =>
                cases hfb : Method.from_bytes mb with
                | none => exact absurd hw2 (by intro hc; simp [afterParse, hfb] at hc)
                | some mm =>
                  cases op with
                  | none => exact absurd hw2 (by intro hc; simp [afterParse, hfb] at hc)
                  | some p =>
                    refine ⟨(dispatch p mm (utf8Lossy buf)).1,
                      (dispatch p mm (utf8Lossy buf)).2.1,
                      (dispatch p mm (utf8Lossy buf)).2.2, ?_⟩
                    simp [handle_client, h0, hp, afterParse, hfb]
  refine ⟨hshape, ?_, ?_, ?_, ?_⟩
  · rcases hshape with h | ⟨c, ct, s, h⟩ <;> simp [h]
  · intro e he; subst he; rfl
  · intro buf hb h0; subst hb; simp [handle_client, h0]
  · intro buf er hb hp
    subst hb
    by_cases h0 : buf.length = 0
    · simp [handle_client, h0]
    · simp [handle_client, h0, hp]

/-- Witness for C8 at concrete inputs. -/
theorem claim_C8_one_response_or_none_witness :
    (handle_client (.ok (bytes "\x01bad")) true true).writes = [] :=
  (claim_C8_one_response_or_none (.ok (bytes "\x01bad")) true true).2.2.2.2
    (bytes "\x01bad") HErr.Token rfl (by decide)

/-- Claim C9: whenever `handle_client` attempts a write, it makes exactly
one write attempt (never retried), always goes on to flush, returns
`Ok(())` regardless of whether the write or the flush failed, and logs
each of those failures. -/
theorem claim_C9_write_failure_nonfatal (rr : Except String (List Nat)) (w f : Bool)
    (hw : (handle_client rr w f).writes ≠ []) :
    (handle_client rr w f).outcome = .retOk
    ∧ (handle_client rr w f).writes.length = 1
    ∧ (handle_client rr w f).flushed = true
    ∧ (w = false → "Failed to write response" ∈ (handle_client rr w f).logs)
    ∧ (f = false → "Failed to flush stream" ∈ (handle_client rr w f).logs) := by
  rcases handle_client_cases rr w f with h | h | h | ⟨msg, h⟩ | ⟨wire, h⟩
  · exact absurd (by rw [h]) hw
  · exact absurd (by rw [h]) hw
  · exact absurd (by rw [h]) hw
  · exact absurd (by rw [h]) hw
  · rw [h]
    refine ⟨rfl, rfl, rfl, ?_, ?_⟩
    · intro hwf; subst hwf; simp
    · intro hff; subst hff; simp

/-- Witness for C9: a request served while both the write and the flush
fail still ends with `Ok(())` and both failures logged. -/
theorem claim_C9_write_failure_nonfatal_witness :
    (handle_client (.ok (bytes "GET / HTTP/1.1\r\n\r\n")) false false).outcome
        = ConnOutcome.retOk
    ∧ "Failed to write response"
        ∈ (handle_client (.ok (bytes "GET / HTTP/1.1\r\n\r\n")) false false).logs
    ∧ "Failed to flush stream"
        ∈ (handle_client (.ok (bytes "GET / HTTP/1.1\r\n\r\n")) false false).logs := by
  have h := claim_C9_write_failure_nonfatal (.ok (bytes "GET / HTTP/1.1\r\n\r\n"))
    false false (by decide)
  exact ⟨h.1, h.2.2.2.1 rfl, h.2.2.2.2 rfl⟩

/-- Claim C10: every handler ignores its request-text argument, so the
dispatched response — and the whole post-parse behavior of
`handle_client` — is a function of the parsed `(path, method)` alone:
two requests with the same parse result give byte-identical results. -/
theorem claim_C10_response_ignores_request (r1 r2 p : List Nat) (m : Method)
    (pr : PReq) (w f : Bool) :
    handle_hello r1 = handle_hello r2
    ∧ handle_goodbye r1 = handle_goodbye r2
    ∧ handle_submit r1 = handle_submit r2
    ∧ handle_not_found r1 = handle_not_found r2
    ∧ dispatch p m r1 = dispatch p m r2
    ∧ afterParse pr r1 w f = afterParse pr r2 w f := by
  refine ⟨rfl, rfl, rfl, rfl, dispatch_req_irrel p m r1 r2, ?_⟩
  obtain ⟨om, op⟩ := pr
  cases om with
  | none => rfl
  | some mb =>
    cases hfb : Method.from_bytes mb with
    | none => simp [afterParse, hfb]
    | some mm =>
      cases op with
      | none => simp [afterParse, hfb]
      | some p2 =>
        simp only [afterParse, hfb]
        rw [dispatch_req_irrel p2 mm r1 r2]

end HttpServer
